import Mathlib

/-!
Verification of the wallet-scoring / signal-aggregation engine
(`scorer.py`, `analyzer.py`) of the Polymarket smart-money analyzer.

Modelling conventions:
* Python floats are modelled as `ℚ` (the engine's arithmetic is
  comparison/+,·,/ on decimal constants; decimal literals such as `0.3`
  are exact in `ℚ`).
* Unix timestamps are modelled as `ℤ`.
* `math.sqrt` is irrational, so functions that call it take an explicit
  parameter `sqrtFn : ℚ → ℚ` standing for it; concrete evaluations use
  inputs where every `sqrt` argument is `1` (where `sqrt` returns `1`),
  so any stand-in with that value is exact there.
* A Python dict of per-wallet stats read with `stats.get(key, default)`
  is modelled as a structure of `Option ℚ` fields plus `getD`-style
  defaulting at the use sites, mirroring the source exactly.
* `score_wallet` returns `None` on any hard-filter failure; the scored
  profile it otherwise builds involves wall-clock time and `sqrt`/`exp`,
  so we embed the filter section (`scorer.py` lines 256-291) as
  `score_wallet_filter`, which returns `some reason` exactly when the
  source returns `None`, and `none` exactly when the source goes on to
  build a profile.  Rejection is fully determined by that section.
* Display rounding (`round(x, n)`, `:.1f`, `:.0%` format specifiers) is
  presentational only and is omitted; string fields are otherwise built
  the way the source builds them.
-/

/-- Filter threshold `MIN_TOTAL_PNL` from `scorer.py`. -/
def MIN_TOTAL_PNL : ℚ := 5000

/-- Filter threshold `MIN_REALIZED_PNL` from `scorer.py`. -/
def MIN_REALIZED_PNL : ℚ := 500

/-- Filter threshold `MIN_MARKETS` from `scorer.py`. -/
def MIN_MARKETS : ℚ := 5

/-- Filter threshold `MIN_CLOSED_WINS` from `scorer.py`. -/
def MIN_CLOSED_WINS : ℚ := 3

/-- Cluster window constant `CLUSTER_WINDOW_HOURS` from `scorer.py`. -/
def CLUSTER_WINDOW_HOURS : ℤ := 24

/-- Cluster cap constant `CLUSTER_VOTE_CAP` from `scorer.py`. -/
def CLUSTER_VOTE_CAP : ℚ := 1.5

/-- Per-wallet stats record as consumed by `score_wallet` (`scorer.py`)
and by the drop-reason tracking in `run_analysis` (`analyzer.py`).
Each field is `Option`al because the Python code reads a dict with
`stats.get(key, default)`; an absent key is `none`.  Only the fields the
hard filters and the drop-reason tracking consult are listed; the
remaining fields of the dict feed the scoring factors, which do not
affect acceptance or rejection. -/
structure Stats where
  total_pnl : Option ℚ
  realized_pnl : Option ℚ
  markets_traded : Option ℚ
  closed_wins : Option ℚ
  closed_total : Option ℚ
deriving DecidableEq

/-- The empty stats dict `{}`, produced when a per-wallet stats lookup
raises (`analyzer.py`, `_fetch_and_score_wallet`). -/
def emptyStats : Stats := ⟨none, none, none, none, none⟩

/-- The four hard filters of `score_wallet`, in source order. -/
inductive DropReason
  | pnl
  | realized
  | markets
  | wins
deriving DecidableEq

/-- Hard-filter section of `score_wallet` (`scorer.py` lines 256-291).
Returns `some r` when the source returns `None` with the first failing
filter being `r`, and `none` when every filter passes (the source then
always builds and returns a profile dict). -/
def score_wallet_filter (stats : Stats) (min_profit : ℚ) : Option DropReason :=
  let pnl := stats.total_pnl.getD 0
  let realized_pnl := stats.realized_pnl.getD 0
  let markets := stats.markets_traded.getD 0
  let closed_wins := stats.closed_wins.getD 0
  let closed_total := stats.closed_total.getD 0
  if pnl < min_profit then some DropReason.pnl
  else
    let effective_realized := if 0 < realized_pnl then realized_pnl else pnl * 0.3
    if effective_realized < MIN_REALIZED_PNL then some DropReason.realized
    else if markets < MIN_MARKETS then some DropReason.markets
    else if 0 < closed_total ∧ closed_wins < MIN_CLOSED_WINS then some DropReason.wins
    else none

/-- Drop-reason attribution of `run_analysis` (`analyzer.py` lines
174-181): an independent `elif` chain over the raw stats values, used
only for the aggregate breakdown counters. -/
def analyzer_drop_reason (stats : Stats) (min_profit : ℚ) : Option DropReason :=
  let pnl := stats.total_pnl.getD 0
  let realized := stats.realized_pnl.getD 0
  let mkts := stats.markets_traded.getD 0
  let closed_wins := stats.closed_wins.getD 0
  if pnl < min_profit then some DropReason.pnl
  else if realized < 500 then some DropReason.realized
  else if mkts < 5 then some DropReason.markets
  else if closed_wins < 3 then some DropReason.wins
  else none

/-- Number of wallets the `run_analysis` breakdown counts under drop
reason `r` (the counter `dropped_pnl` / `dropped_realized` /
`dropped_markets` / `dropped_wins`, accumulated one wallet at a time in
the source; counting is order-independent, so completion order of the
thread pool does not matter). -/
def analyzer_dropped_count (statsList : List Stats) (min_profit : ℚ)
    (r : DropReason) : ℕ :=
  (statsList.filter (fun s => analyzer_drop_reason s min_profit = some r)).length

/-- Layer 1 multiplier `compute_category_multiplier` (`scorer.py`). -/
def compute_category_multiplier (category_pnl category_total : ℚ) : ℚ :=
  if category_total ≤ 0 ∨ category_pnl < 0 then 1
  else 0.85 + 0.40 * (max (min (category_pnl / category_total) 1) 0)

/-- Layer 3 multiplier `compute_recent_form_multiplier` (`scorer.py`). -/
def compute_recent_form_multiplier (recent_pnl historical_pnl : ℚ) : ℚ :=
  if historical_pnl ≤ 0 ∧ recent_pnl ≤ 0 then 1
  else if historical_pnl ≤ 0 ∧ 0 < recent_pnl then 1.10
  else if recent_pnl ≤ 0 ∧ 0 < historical_pnl then 0.90
  else 0.90 + 0.15 * min (recent_pnl / historical_pnl) 2.0

/-- A scored profile, restricted to the fields consumed by
`detect_clusters` and `aggregate_signal` (`scorer.py`); the source dict
carries further fields for display only. -/
structure Profile where
  address : String
  outcome : String
  composite : ℚ
  s_conviction : ℚ
  usdc_invested : ℚ
  total_pnl : ℚ
  first_trade_ts : ℤ
deriving DecidableEq

/-- One step of the inner loop of `detect_clusters`: the accumulator is
the pair (cluster built so far, `used` set); `p2` is skipped when
already used, joined when within the window of the seed `p1`. -/
def clusterStep (p1 : Profile) (window : ℤ)
    (acc : List String × List String) (p2 : Profile) :
    List String × List String :=
  if p2.address ∈ acc.2 then acc
  else if |p1.first_trade_ts - p2.first_trade_ts| ≤ window then
    (acc.1 ++ [p2.address], p2.address :: acc.2)
  else acc

/-- Outer loop of `detect_clusters`: greedy seed-relative grouping with
a mutable `used` set threaded through, exactly as in the source (a
cluster is recorded, and its seed marked used, only when it has more
than one member; the members joined by the inner loop are marked used
as they are joined). -/
def detectClustersAux (window : ℤ) : List Profile → List String → List (List String)
  | [], _ => []
  | p1 :: rest, used =>
    if p1.address ∈ used then detectClustersAux window rest used
    else
      let r := rest.foldl (clusterStep p1 window) ([p1.address], used)
      if 1 < r.1.length then r.1 :: detectClustersAux window rest (p1.address :: r.2)
      else detectClustersAux window rest used

/-- Layer 5 `detect_clusters` (`scorer.py`): groups wallets whose first
trade falls within `CLUSTER_WINDOW_HOURS` of a seed wallet's. -/
def detect_clusters (profiles : List Profile) : List (List String) :=
  detectClustersAux (CLUSTER_WINDOW_HOURS * 3600) profiles []

/-- Lowercasing as used by the source's `outcome.lower()` calls; defined
structurally over the character list (equivalent to `String.toLower`,
which is defined by well-founded recursion and therefore unsuited to
kernel evaluation). -/
def strLower (s : String) : String := ⟨s.data.map Char.toLower⟩

/-- Substring test over character lists, standing for Python's
`needle in hay`. -/
def charsContain (hay needle : List Char) : Bool :=
  hay.tails.any fun t => needle.isPrefixOf t

/-- Raw vote weight of one wallet (`vote_raw` in `aggregate_signal`):
`composite * s_conviction * sqrt(max(usdc_invested, 1))`, with `sqrtFn`
standing for `math.sqrt`. -/
def vote_raw (sqrtFn : ℚ → ℚ) (p : Profile) : ℚ :=
  p.composite * p.s_conviction * sqrtFn (max p.usdc_invested 1)

/-- The `cluster_map` dict of `aggregate_signal`: wallet address to
cluster id, built by enumerating the clusters in order, later clusters
overwriting earlier assignments exactly as repeated dict stores do. -/
def cluster_map (clusters : List (List String)) (addr : String) : Option ℕ :=
  clusters.enum.foldl (fun acc x => if addr ∈ x.2 then some x.1 else acc) none

/-- The cluster map `aggregate_signal` actually uses: the one built
from `detect_clusters profiles`. -/
def agg_cmap (profiles : List Profile) : String → Option ℕ :=
  cluster_map (detect_clusters profiles)

/-- The members of cluster `cid` among `profiles` (the profiles the
`cluster_votes`/`cluster_counts` accumulation loop attributes to `cid`). -/
def cluster_members (profiles : List Profile) (cmap : String → Option ℕ)
    (cid : ℕ) : List Profile :=
  profiles.filter (fun p => cmap p.address = some cid)

/-- The `cluster_votes[cid]` accumulator of `aggregate_signal`: sum of
raw votes of the profiles mapped to cluster `cid`. -/
def cluster_votes (sqrtFn : ℚ → ℚ) (profiles : List Profile)
    (cmap : String → Option ℕ) (cid : ℕ) : ℚ :=
  ((cluster_members profiles cmap cid).map (vote_raw sqrtFn)).sum

/-- The `cluster_counts[cid]` accumulator of `aggregate_signal`. -/
def cluster_counts (profiles : List Profile) (cmap : String → Option ℕ)
    (cid : ℕ) : ℕ :=
  (cluster_members profiles cmap cid).length

/-- The `cluster_caps[cid]` scale factor of `aggregate_signal`:
`cap / total` where `cap = (total / count) * CLUSTER_VOTE_CAP`, or `1.0`
when the raw total is not positive. -/
def cluster_caps (sqrtFn : ℚ → ℚ) (profiles : List Profile)
    (cmap : String → Option ℕ) (cid : ℕ) : ℚ :=
  let total := cluster_votes sqrtFn profiles cmap cid
  let avg_single := total / (cluster_counts profiles cmap cid : ℚ)
  let cap := avg_single * CLUSTER_VOTE_CAP
  if 0 < total then cap / total else 1

/-- The `vote` function of `aggregate_signal`: raw weight, scaled by the
cluster cap when the wallet belongs to a cluster. -/
def vote (sqrtFn : ℚ → ℚ) (profiles : List Profile)
    (cmap : String → Option ℕ) (p : Profile) : ℚ :=
  match cmap p.address with
  | some cid => vote_raw sqrtFn p * cluster_caps sqrtFn profiles cmap cid
  | none => vote_raw sqrtFn p

/-- The `yes_profiles` list of `aggregate_signal`. -/
def agg_yes_profiles (profiles : List Profile) : List Profile :=
  profiles.filter (fun p => strLower p.outcome = "yes")

/-- The `no_profiles` list of `aggregate_signal`. -/
def agg_no_profiles (profiles : List Profile) : List Profile :=
  profiles.filter (fun p => strLower p.outcome = "no")

/-- The `yes_votes` total of `aggregate_signal`. -/
def agg_yes_votes (sqrtFn : ℚ → ℚ) (profiles : List Profile) : ℚ :=
  ((agg_yes_profiles profiles).map (vote sqrtFn profiles (agg_cmap profiles))).sum

/-- The `no_votes` total of `aggregate_signal`. -/
def agg_no_votes (sqrtFn : ℚ → ℚ) (profiles : List Profile) : ℚ :=
  ((agg_no_profiles profiles).map (vote sqrtFn profiles (agg_cmap profiles))).sum

/-- The `total` denominator of `aggregate_signal`: Python's
`yes_votes + no_votes or 1`, which yields `1` exactly when the sum is
zero (falsy) and the raw sum itself otherwise. -/
def agg_total (sqrtFn : ℚ → ℚ) (profiles : List Profile) : ℚ :=
  if agg_yes_votes sqrtFn profiles + agg_no_votes sqrtFn profiles = 0 then 1
  else agg_yes_votes sqrtFn profiles + agg_no_votes sqrtFn profiles

/-- The `top5_yes` count of `aggregate_signal`. -/
def agg_top5_yes (profiles : List Profile) : ℕ :=
  ((profiles.take 5).filter (fun p => strLower p.outcome = "yes")).length

/-- The `top5_no` count of `aggregate_signal`. -/
def agg_top5_no (profiles : List Profile) : ℕ :=
  (profiles.take 5).length - agg_top5_yes profiles

/-- The `top_label` string of `aggregate_signal` (top-5 consensus). -/
def top5_label (profiles : List Profile) : String :=
  let top5_yes := agg_top5_yes profiles
  let top5_no := agg_top5_no profiles
  if 4 ≤ top5_yes then s!"Strong YES ({top5_yes}/5)"
  else if 4 ≤ top5_no then s!"Strong NO ({top5_no}/5)"
  else if 3 ≤ top5_yes then s!"Lean YES ({top5_yes}/5)"
  else if 3 ≤ top5_no then s!"Lean NO ({top5_no}/5)"
  else s!"Split ({top5_yes}/{top5_no})"

/-- The whale-dominance check of `aggregate_signal`: it reads
`profiles[0]` and `profiles[1]` of the list it was handed (which the
pipeline pre-sorts by composite, descending) and warns when the second
entry's invested value is positive and the first's is at least three
times it.  The ratio in the message is displayed with one decimal in
the source. -/
def whaleWarningOf (profiles : List Profile) : Option String :=
  match profiles with
  | p0 :: p1 :: _ =>
    let top := p0.usdc_invested
    let sec := p1.usdc_invested
    if 0 < sec ∧ 3 ≤ top / sec then
      some "Single whale dominates (top over 3x the number-2 holder)"
    else none
  | _ => none

/-- The cluster warning of `aggregate_signal`: fires when the biggest
detected cluster (first of maximal size, as Python's `max` picks) has at
least 3 members. -/
def clusterWarningOf (clusters : List (List String)) : Option String :=
  match clusters with
  | [] => none
  | c :: cs =>
    let biggest := cs.foldl (fun acc x => if acc.length < x.length then x else acc) c
    let n := biggest.length
    if 3 ≤ n then
      some s!"{n} wallets entered within 24h of each other — possible coordination (vote weight capped)"
    else none

/-- The market-level signal record built by `aggregate_signal`
(`scorer.py`).  `yes_pct`/`no_pct` hold the percentage values before the
source's final display rounding; `confidence` likewise. -/
structure Signal where
  signal : String
  strength : String
  confidence : ℚ
  reasoning : String
  yes_pct : ℚ
  no_pct : ℚ
  yes_count : ℕ
  no_count : ℕ
  total_qualified : ℕ
  top5_consensus : String
  whale_warning : Option String
  cluster_warning : Option String
  clusters_found : ℕ
deriving DecidableEq

/-- The `_empty_signal` helper of `scorer.py`. -/
def empty_signal (reason : String) : Signal :=
  Signal.mk "NO_CLEAR_SIGNAL" "N/A" 0 reason 0 0 0 0 0 "N/A" none none 0

/-- Signal aggregation `aggregate_signal` (`scorer.py`): cluster-capped
weighted vote, consensus label, confidence, thresholds, warnings.
Quantities that the theorems below inspect are factored into the
helper definitions above, which this definition assembles in source
order. -/
def aggregate_signal (sqrtFn : ℚ → ℚ) (profiles : List Profile) : Signal :=
  let n := profiles.length
  if n < 3 then
    empty_signal s!"Only {n} qualified wallets — need 3+ for a signal"
  else
    let clusters := detect_clusters profiles
    let yes_votes := agg_yes_votes sqrtFn profiles
    let no_votes := agg_no_votes sqrtFn profiles
    let total := agg_total sqrtFn profiles
    let yes_pct := yes_votes / total
    let no_pct := no_votes / total
    let top_label := top5_label profiles
    let spread := |yes_pct - no_pct|
    let n_factor := min ((n : ℚ) / 10) 1.5
    let cons_bonus : ℚ :=
      if charsContain top_label.data "Strong".data then 2
      else if charsContain top_label.data "Lean".data then 1
      else 0
    let confidence := min (spread * 10 * n_factor + cons_bonus) 10
    let dominant_pct := max yes_pct no_pct
    let strength : Option String :=
      if 0.65 ≤ dominant_pct then some "STRONG"
      else if 0.57 ≤ dominant_pct then some "MODERATE"
      else if 0.52 ≤ dominant_pct then some "WEAK"
      else none
    let signal :=
      match strength with
      | none => "NO_CLEAR_SIGNAL"
      | some _ => if no_pct < yes_pct then "BUY_YES" else "BUY_NO"
    let whale_warning := whaleWarningOf profiles
    let cluster_warning := clusterWarningOf clusters
    let dominant_side := if no_pct < yes_pct then "YES" else "NO"
    let dominant_count :=
      if no_pct < yes_pct then (agg_yes_profiles profiles).length
      else (agg_no_profiles profiles).length
    let top_avg_pnl := ((profiles.take 5).map Profile.total_pnl).sum / (min 5 n : ℚ)
    let strength_text := (strength.map (fun st => st ++ " ")).getD ""
    let signal_words := String.mk (signal.data.map (fun c => if c = '_' then ' ' else c))
    let base_reasoning :=
      s!"{strength_text}{signal_words}: {dominant_count}/{n} qualified wallets positioned {dominant_side} (weighted vote share {dominant_pct}). Top-5 consensus: {top_label}. Avg PnL of top-5: {top_avg_pnl}."
    let with_whale :=
      match whale_warning with
      | some w => base_reasoning ++ s!" ⚠️ {w}."
      | none => base_reasoning
    let reasoning :=
      match cluster_warning with
      | some w => with_whale ++ s!" 🔗 {w}."
      | none => with_whale
    Signal.mk signal (strength.getD "N/A") confidence reasoning
      (100 * yes_pct) (100 * no_pct)
      (agg_yes_profiles profiles).length (agg_no_profiles profiles).length
      n top_label whale_warning cluster_warning clusters.length

/-- Largest and second-largest invested values, modelled from the
spec's wording of the whale-dominance trigger ("the single largest
invested-value wallet's amount is ≥3× the second-largest's amount"):
some reordering of all the profiles' invested values is descending and
its first element is at least three times its second. -/
def spec_whale_condition (profiles : List Profile) : Prop :=
  ∃ top second rest,
    (profiles.map Profile.usdc_invested).Perm (top :: second :: rest) ∧
    (∀ v ∈ second :: rest, v ≤ top) ∧
    (∀ v ∈ rest, v ≤ second) ∧
    3 * second ≤ top

/-- Stand-in for `math.sqrt` on the inputs used by the concrete runs
below: every such run has `usdc_invested ≤ 1`, so `sqrt` is only ever
applied to `max usdc_invested 1 = 1`, where the real square root is
exactly `1`. -/
def sqrtQ1 : ℚ → ℚ := fun _ => 1

/-- Concrete stats: total_pnl 5000, realized_pnl absent, 2 markets. -/
def statsC1 : Stats := ⟨some 5000, none, some 2, none, none⟩

/-- Concrete stats passing the pnl filter shape used by the C1 witness. -/
def statsW1 : Stats := ⟨some 0, some 600, some 9, some 5, some 4⟩

/-- Concrete stats: low pnl, everything else absent. -/
def statsW6a : Stats := ⟨some 100, none, none, none, none⟩

/-- Concrete stats: no closed data, terrible closed_wins. -/
def statsW6b : Stats := ⟨some 1000000, some 1000, some 10, some (-5), some 0⟩

/-- Concrete profile: YES holder, weak composite, entered at t=0. -/
def pY1 : Profile := ⟨"a", "YES", 1/10, 1/2, 1, 1000, 0⟩

/-- Concrete profile: YES holder, weak composite, entered at t=200000. -/
def pY2 : Profile := ⟨"b", "Yes", 1/10, 1/2, 1, 2000, 200000⟩

/-- Concrete profile: NO holder, weak composite, entered at t=400000. -/
def pN1 : Profile := ⟨"c", "no", 1/10, 1/2, 1, 3000, 400000⟩

/-- Three spaced-out profiles (no cluster forms): 2 YES, 1 NO, with a
raw vote total strictly between 0 and 1. -/
def psSmallVotes : List Profile := [pY1, pY2, pN1]

/-- Whale counterexample run: the two first-listed (highest-composite)
profiles have invested value 1, the third has invested value 10. -/
def psWhaleC : List Profile :=
  [⟨"a", "YES", 9/10, 1/2, 1, 1000, 0⟩,
   ⟨"b", "YES", 8/10, 1/2, 1, 2000, 200000⟩,
   ⟨"c", "NO", 7/10, 1/2, 10, 3000, 400000⟩]

/-- Whale witness run: first-listed invested 9, second 3, ratio 3. -/
def psWhaleW : List Profile :=
  [⟨"x", "YES", 9/10, 1/2, 9, 1000, 0⟩,
   ⟨"y", "NO", 8/10, 1/2, 3, 2000, 200000⟩,
   ⟨"z", "YES", 7/10, 1/2, 1, 3000, 400000⟩]

/-- Two wallets that entered at the same timestamp (cluster pair) plus
one that entered far away: fixture for the cluster-cap witness. -/
def psClusterW : List Profile :=
  [⟨"ca", "YES", 1, 1, 1, 1000, 500⟩,
   ⟨"cb", "YES", 1, 1, 1, 2000, 600⟩,
   ⟨"cc", "NO", 1, 1, 1, 3000, 10000000⟩]

/-- Two profiles sharing one timestamp: fixture for `detect_clusters`. -/
def psSameTs : List Profile :=
  [⟨"w1", "YES", 1, 1, 1, 1000, 7777⟩, ⟨"w2", "NO", 1, 1, 1, 2000, 7777⟩]

/-- Two profiles more than 24h apart: fixture for `detect_clusters`. -/
def psFarTs : List Profile :=
  [⟨"w3", "YES", 1, 1, 1, 1000, 0⟩, ⟨"w4", "NO", 1, 1, 1, 2000, 90000⟩]

/-- C3: for every combination of zero-or-negative inputs to the
category-expertise multiplier and to the recent-form multiplier (the
denominators `category_total` and `historical_pnl` then being ≤ 0),
both multipliers are exactly 1. -/
theorem neutral_multipliers_on_nonpositive_data
    (category_pnl category_total recent_pnl historical_pnl : ℚ)
    (_hcp : category_pnl ≤ 0) (hct : category_total ≤ 0)
    (hrp : recent_pnl ≤ 0) (hhp : historical_pnl ≤ 0) :
    compute_category_multiplier category_pnl category_total = 1 ∧
    compute_recent_form_multiplier recent_pnl historical_pnl = 1 := by
  constructor
  · unfold compute_category_multiplier
    rw [if_pos (Or.inl hct)]
  · unfold compute_recent_form_multiplier
    rw [if_pos ⟨hhp, hrp⟩]

/-- Witness for C3 at the concrete inputs (0, -2) and (-1, 0). -/
theorem neutral_multipliers_on_nonpositive_data_witness :
    compute_category_multiplier 0 (-2) = 1 ∧
    compute_recent_form_multiplier (-1) 0 = 1 :=
  neutral_multipliers_on_nonpositive_data 0 (-2) (-1) 0
    (by norm_num) (by norm_num) (by norm_num) (by norm_num)

/-- C6: a wallet whose `total_pnl` is below the minimum-profit
threshold is rejected (at the pnl filter) whatever every other field
holds, and a wallet with `closed_total = 0` is never rejected by the
closed-wins filter, however low `closed_wins` is. -/
theorem hard_filter_pnl_and_closed_wins :
    (∀ (stats : Stats) (min_profit : ℚ),
        stats.total_pnl.getD 0 < min_profit →
        score_wallet_filter stats min_profit = some DropReason.pnl) ∧
    (∀ (stats : Stats) (min_profit : ℚ),
        stats.closed_total.getD 0 = 0 →
        score_wallet_filter stats min_profit ≠ some DropReason.wins) := by
  constructor
  · intro stats min_profit h
    unfold score_wallet_filter
    rw [if_pos h]
  · intro stats min_profit hct
    unfold score_wallet_filter
    dsimp only
    rw [hct]
    split_ifs with h1 h2 h3 h4 <;> simp_all

/-- Witness for C6: a $100-pnl wallet is rejected at the pnl filter,
and a wallet with no closed positions and `closed_wins = -5` is not
rejected by the closed-wins filter. -/
theorem hard_filter_pnl_and_closed_wins_witness :
    score_wallet_filter statsW6a 5000 = some DropReason.pnl ∧
    score_wallet_filter statsW6b 5000 ≠ some DropReason.wins :=
  ⟨hard_filter_pnl_and_closed_wins.1 statsW6a 5000 (by norm_num [statsW6a]),
   hard_filter_pnl_and_closed_wins.2 statsW6b 5000 (by norm_num [statsW6b])⟩

/-- C10: evaluating a wallet whose stats record is entirely empty (as
after a failed stats lookup) against any positive minimum-profit
threshold rejects it at the first hard filter, since the defaulted
`total_pnl` of 0 is below the threshold; no profile is produced. -/
theorem empty_stats_rejected (min_profit : ℚ) (h : 0 < min_profit) :
    score_wallet_filter emptyStats min_profit = some DropReason.pnl := by
  unfold score_wallet_filter emptyStats
  rw [if_pos]
  exact h

/-- Witness for C10 at the default threshold 5000. -/
theorem empty_stats_rejected_witness :
    score_wallet_filter emptyStats 5000 = some DropReason.pnl :=
  empty_stats_rejected 5000 (by norm_num)

/-- C9: with fewer than 3 profiles (in particular exactly 2) the
aggregator returns the well-formed no-signal result: signal
`NO_CLEAR_SIGNAL`, confidence 0, a non-empty rationale, and zeroed
vote-share and count fields. -/
theorem insufficient_profiles_empty_signal (sqrtFn : ℚ → ℚ)
    (profiles : List Profile) (h : profiles.length < 3) :
    (aggregate_signal sqrtFn profiles).signal = "NO_CLEAR_SIGNAL" ∧
    (aggregate_signal sqrtFn profiles).confidence = 0 ∧
    (aggregate_signal sqrtFn profiles).reasoning ≠ "" ∧
    (aggregate_signal sqrtFn profiles).yes_pct = 0 ∧
    (aggregate_signal sqrtFn profiles).no_pct = 0 ∧
    (aggregate_signal sqrtFn profiles).yes_count = 0 ∧
    (aggregate_signal sqrtFn profiles).no_count = 0 ∧
    (aggregate_signal sqrtFn profiles).total_qualified = 0 := by
  have hc : profiles.length = 0 ∨ profiles.length = 1 ∨ profiles.length = 2 := by omega
  rcases hc with h0 | h0 | h0 <;>
    simp only [aggregate_signal, h0] <;>
    norm_num [empty_signal] <;>
    decide

/-- Witness for C9 with a concrete 2-profile input. -/
theorem insufficient_profiles_empty_signal_witness :
    (aggregate_signal sqrtQ1 psSameTs).signal = "NO_CLEAR_SIGNAL" ∧
    (aggregate_signal sqrtQ1 psSameTs).confidence = 0 ∧
    (aggregate_signal sqrtQ1 psSameTs).reasoning ≠ "" ∧
    (aggregate_signal sqrtQ1 psSameTs).yes_pct = 0 ∧
    (aggregate_signal sqrtQ1 psSameTs).no_pct = 0 ∧
    (aggregate_signal sqrtQ1 psSameTs).yes_count = 0 ∧
    (aggregate_signal sqrtQ1 psSameTs).no_count = 0 ∧
    (aggregate_signal sqrtQ1 psSameTs).total_qualified = 0 :=
  insufficient_profiles_empty_signal sqrtQ1 psSameTs (by norm_num [psSameTs])

/-- When the raw `realized_pnl` is positive (so `score_wallet` does not
take the 30%-of-pnl fallback) and `closed_total` is positive (so the
closed-wins filter is not skipped), the analyzer's breakdown chain
attributes a wallet to exactly the filter at which `score_wallet`
rejects it. -/
theorem analyzer_matches_filter (s : Stats) (mp : ℚ)
    (hr : 0 < s.realized_pnl.getD 0) (hc : 0 < s.closed_total.getD 0) :
    analyzer_drop_reason s mp = score_wallet_filter s mp := by
  unfold analyzer_drop_reason score_wallet_filter MIN_REALIZED_PNL MIN_MARKETS MIN_CLOSED_WINS
  dsimp only
  rw [if_pos hr]
  simp [hc]

/-- C1 (amended): in a run ending with zero qualified profiles, the
drop-reason breakdown counts each wallet by an independent check on the
raw stats (`pnl` below threshold, else `realized_pnl < 500`, else
`markets < 5`, else `closed_wins < 3`); these counters agree with the
filter at which evaluation actually rejected each wallet provided every
wallet's raw `realized_pnl` and `closed_total` are positive — without
that proviso the chain can attribute a wallet to a different filter
than the one that rejected it. -/
theorem drop_breakdown_counts (statsList : List Stats) (mp : ℚ)
    (_hzero : ∀ s ∈ statsList, score_wallet_filter s mp ≠ none)
    (hdata : ∀ s ∈ statsList,
      0 < s.realized_pnl.getD 0 ∧ 0 < s.closed_total.getD 0) :
    ∀ r : DropReason,
      analyzer_dropped_count statsList mp r =
        (statsList.filter (fun s => score_wallet_filter s mp = some r)).length := by
  intro r
  unfold analyzer_dropped_count
  congr 1
  apply List.filter_congr
  intro s hs
  rw [analyzer_matches_filter s mp (hdata s hs).1 (hdata s hs).2]

/-- Witness for C1's amended statement: a one-wallet run whose wallet
fails the pnl filter and has positive realized/closed data. -/
theorem drop_breakdown_counts_witness :
    analyzer_dropped_count [statsW1] 5000 DropReason.pnl =
      ([statsW1].filter
        (fun s => score_wallet_filter s 5000 = some DropReason.pnl)).length :=
  drop_breakdown_counts [statsW1] 5000
    (by
      intro s hs
      rw [List.mem_singleton] at hs
      subst hs
      norm_num [score_wallet_filter, statsW1]
      decide)
    (by
      intro s hs
      rw [List.mem_singleton] at hs
      subst hs
      norm_num [statsW1])
    DropReason.pnl

/-- Counterexample to C1 as stated: the run consisting of the single
wallet `statsC1` (total_pnl 5000, realized_pnl absent, 2 markets) at
threshold 5000 ends with zero qualified profiles and evaluation rejects
the wallet at the markets filter, yet the breakdown counts it under the
realized filter and counts nobody under the markets filter. -/
theorem drop_breakdown_mismatch :
    score_wallet_filter statsC1 5000 = some DropReason.markets ∧
    score_wallet_filter statsC1 5000 ≠ none ∧
    analyzer_dropped_count [statsC1] 5000 DropReason.markets = 0 ∧
    analyzer_dropped_count [statsC1] 5000 DropReason.realized = 1 := by
  refine ⟨?_, ?_, ?_, ?_⟩ <;>
    norm_num [score_wallet_filter, analyzer_dropped_count, analyzer_drop_reason,
      statsC1, MIN_REALIZED_PNL, MIN_MARKETS, MIN_CLOSED_WINS] <;>
    decide

/-- If every profile's address is already in the `used` set, the outer
loop of `detect_clusters` records nothing. -/
theorem detectClustersAux_all_used (w : ℤ) (l : List Profile) (used : List String)
    (h : ∀ p ∈ l, p.address ∈ used) : detectClustersAux w l used = [] := by
  induction l with
  | nil => rfl
  | cons p1 rest ih =>
    simp only [detectClustersAux]
    rw [if_pos (h p1 (List.mem_cons_self _ _))]
    exact ih fun p hp => h p (List.mem_cons_of_mem _ hp)

/-- When every remaining profile is within the window of the seed and
has a fresh address distinct from the others, the inner loop joins all
of them: the cluster is the seed's accumulator followed by all their
addresses, and the `used` set gains exactly those addresses. -/
theorem clusterFold_collect (p1 : Profile) (w : ℤ) (rest : List Profile)
    (c u : List String)
    (hts : ∀ p ∈ rest, |p1.first_trade_ts - p.first_trade_ts| ≤ w)
    (hnd : (rest.map Profile.address).Nodup)
    (hdisj : ∀ p ∈ rest, p.address ∉ u) :
    rest.foldl (clusterStep p1 w) (c, u) =
      (c ++ rest.map Profile.address, (rest.map Profile.address).reverse ++ u) := by
  induction rest generalizing c u with
  | nil => simp
  | cons p2 rest ih =>
    rw [List.map_cons, List.nodup_cons] at hnd
    rw [List.foldl_cons]
    have h2 : clusterStep p1 w (c, u) p2 = (c ++ [p2.address], p2.address :: u) := by
      unfold clusterStep
      rw [if_neg (hdisj p2 (List.mem_cons_self _ _)),
        if_pos (hts p2 (List.mem_cons_self _ _))]
    rw [h2, ih (c ++ [p2.address]) (p2.address :: u)
      (fun p hp => hts p (List.mem_cons_of_mem _ hp)) hnd.2
      (by
        intro p hp hmem
        rcases List.mem_cons.mp hmem with heq | hu
        · exact hnd.1 (heq ▸ List.mem_map.mpr ⟨p, hp, rfl⟩)
        · exact hdisj p (List.mem_cons_of_mem _ hp) hu)]
    simp

/-- When every remaining profile is farther than the window from the
seed, the inner loop of `detect_clusters` joins nobody. -/
theorem clusterFold_none (p1 : Profile) (w : ℤ) (rest : List Profile)
    (c u : List String)
    (hts : ∀ p ∈ rest, ¬(|p1.first_trade_ts - p.first_trade_ts| ≤ w)) :
    rest.foldl (clusterStep p1 w) (c, u) = (c, u) := by
  induction rest generalizing c u with
  | nil => rfl
  | cons p2 rest ih =>
    rw [List.foldl_cons]
    have h2 : clusterStep p1 w (c, u) p2 = (c, u) := by
      unfold clusterStep
      by_cases hm : p2.address ∈ u
      · rw [if_pos hm]
      · rw [if_neg hm, if_neg (hts p2 (List.mem_cons_self _ _))]
    rw [h2]
    exact ih c u fun p hp => hts p (List.mem_cons_of_mem _ hp)

/-- With all profiles pairwise farther apart than the window, the outer
loop of `detect_clusters` records nothing, whatever `used` holds. -/
theorem detectClustersAux_far (w : ℤ) (l : List Profile) (used : List String)
    (h : List.Pairwise
      (fun p q => ¬(|p.first_trade_ts - q.first_trade_ts| ≤ w)) l) :
    detectClustersAux w l used = [] := by
  induction l generalizing used with
  | nil => rfl
  | cons p1 rest ih =>
    rw [List.pairwise_cons] at h
    by_cases hm : p1.address ∈ used
    · simp only [detectClustersAux]
      rw [if_pos hm]
      exact ih used h.2
    · simp only [detectClustersAux]
      rw [if_neg hm, clusterFold_none p1 w rest [p1.address] used h.1]
      rw [if_neg (by norm_num)]
      exact ih used h.2

/-- C5: for profiles with distinct addresses and at least two entries,
`detect_clusters` returns exactly one cluster holding every wallet when
all first-trade timestamps coincide, and returns no clusters when every
pair of first-trade timestamps is more than the 24-hour window apart. -/
theorem detect_clusters_extremes (profiles : List Profile)
    (h2 : 2 ≤ profiles.length)
    (hnd : (profiles.map Profile.address).Nodup) :
    (∀ t : ℤ, (∀ p ∈ profiles, p.first_trade_ts = t) →
        detect_clusters profiles = [profiles.map Profile.address]) ∧
    (List.Pairwise
        (fun p q =>
          CLUSTER_WINDOW_HOURS * 3600 < |p.first_trade_ts - q.first_trade_ts|)
        profiles →
      detect_clusters profiles = []) := by
  constructor
  · intro t ht
    obtain ⟨p1, rest, rfl⟩ : ∃ p1 rest, profiles = p1 :: rest := by
      cases profiles with
      | nil => simp at h2
      | cons a l => exact ⟨a, l, rfl⟩
    rw [List.map_cons, List.nodup_cons] at hnd
    unfold detect_clusters
    simp only [detectClustersAux]
    rw [if_neg (List.not_mem_nil _)]
    rw [clusterFold_collect p1 (CLUSTER_WINDOW_HOURS * 3600) rest [p1.address] []
      (by
        intro p hp
        rw [ht p (List.mem_cons_of_mem _ hp), ht p1 (List.mem_cons_self _ _)]
        norm_num [CLUSTER_WINDOW_HOURS])
      hnd.2 (by simp)]
    dsimp only
    have hlen : 1 < ([p1.address] ++ rest.map Profile.address).length := by
      simp only [List.length_append, List.length_map, List.length_cons,
        List.length_nil] at h2 ⊢
      omega
    rw [if_pos hlen]
    rw [detectClustersAux_all_used _ rest _ (by
      intro p hp
      have hpm : p.address ∈ rest.map Profile.address := List.mem_map.mpr ⟨p, hp, rfl⟩
      simp [List.mem_reverse, hpm])]
    simp
  · intro hfar
    unfold detect_clusters
    exact detectClustersAux_far _ profiles []
      (hfar.imp fun hlt => not_le.mpr hlt)

/-- Witness for C5: the identical-timestamp pair forms the single
cluster of both wallets, and the 25-hours-apart pair forms none. -/
theorem detect_clusters_extremes_witness :
    detect_clusters psSameTs = [["w1", "w2"]] ∧ detect_clusters psFarTs = [] :=
  ⟨by
    have h := (detect_clusters_extremes psSameTs (by norm_num [psSameTs])
      (by decide)).1 7777 (by decide)
    simpa [psSameTs] using h,
   (detect_clusters_extremes psFarTs (by norm_num [psFarTs])
      (by decide)).2 (by decide)⟩

/-- Algebra of the cluster cap: scaling a positive raw total `T` by
`(T/n * CLUSTER_VOTE_CAP) / T` yields `CLUSTER_VOTE_CAP * T / n`, which
never exceeds `T` once the cluster has at least two members. -/
theorem capped_sum_eq (T : ℚ) (n : ℕ) (hT : 0 < T) (hn : 2 ≤ n) :
    T * ((T / (n : ℚ) * CLUSTER_VOTE_CAP) / T) = CLUSTER_VOTE_CAP * T / (n : ℚ) ∧
    CLUSTER_VOTE_CAP * T / (n : ℚ) ≤ T := by
  have hn0 : (0 : ℚ) < (n : ℚ) := by
    exact_mod_cast Nat.lt_of_lt_of_le (by norm_num) hn
  have hn2 : (2 : ℚ) ≤ (n : ℚ) := by exact_mod_cast hn
  constructor
  · field_simp
    ring
  · rw [div_le_iff₀ hn0]
    have h2T : T * 2 ≤ T * (n : ℚ) := mul_le_mul_of_nonneg_left hn2 hT.le
    unfold CLUSTER_VOTE_CAP
    norm_num
    linarith

/-- Witness-side helper: a profile mapped to no cluster votes at its
raw weight. -/
theorem vote_unclustered (sqrtFn : ℚ → ℚ) (profiles : List Profile)
    (cmap : String → Option ℕ) (p : Profile) (h : cmap p.address = none) :
    vote sqrtFn profiles cmap p = vote_raw sqrtFn p := by
  simp [vote, h]

/-- C4: for a detected cluster `cid` whose members' raw votes have a
positive sum and which has at least two members, the sum of the
members' post-cap votes equals `CLUSTER_VOTE_CAP` times the raw total
divided by the member count (exactly, in `ℚ`), and never exceeds the
raw total; a wallet assigned to no cluster votes at full raw weight. -/
theorem cluster_vote_cap_sound (sqrtFn : ℚ → ℚ) (profiles : List Profile) (cid : ℕ)
    (hT : 0 < cluster_votes sqrtFn profiles (agg_cmap profiles) cid)
    (hn : 2 ≤ cluster_counts profiles (agg_cmap profiles) cid) :
    ((cluster_members profiles (agg_cmap profiles) cid).map
        (vote sqrtFn profiles (agg_cmap profiles))).sum =
      CLUSTER_VOTE_CAP * cluster_votes sqrtFn profiles (agg_cmap profiles) cid /
        (cluster_counts profiles (agg_cmap profiles) cid : ℚ) ∧
    ((cluster_members profiles (agg_cmap profiles) cid).map
        (vote sqrtFn profiles (agg_cmap profiles))).sum ≤
      cluster_votes sqrtFn profiles (agg_cmap profiles) cid ∧
    ∀ p ∈ profiles, agg_cmap profiles p.address = none →
      vote sqrtFn profiles (agg_cmap profiles) p = vote_raw sqrtFn p := by
  have hmapeq : (cluster_members profiles (agg_cmap profiles) cid).map
      (vote sqrtFn profiles (agg_cmap profiles)) =
      (cluster_members profiles (agg_cmap profiles) cid).map
        (fun p => vote_raw sqrtFn p *
          cluster_caps sqrtFn profiles (agg_cmap profiles) cid) := by
    apply List.map_congr_left
    intro p hp
    have hsome : agg_cmap profiles p.address = some cid := by
      have := (List.mem_filter.mp hp).2
      simpa [cluster_members] using this
    simp [vote, hsome]
  have hcaps : cluster_caps sqrtFn profiles (agg_cmap profiles) cid =
      (cluster_votes sqrtFn profiles (agg_cmap profiles) cid /
          (cluster_counts profiles (agg_cmap profiles) cid : ℚ) *
        CLUSTER_VOTE_CAP) /
        cluster_votes sqrtFn profiles (agg_cmap profiles) cid := by
    unfold cluster_caps
    dsimp only
    rw [if_pos hT]
  have hsum : ((cluster_members profiles (agg_cmap profiles) cid).map
      (vote sqrtFn profiles (agg_cmap profiles))).sum =
      cluster_votes sqrtFn profiles (agg_cmap profiles) cid *
        ((cluster_votes sqrtFn profiles (agg_cmap profiles) cid /
            (cluster_counts profiles (agg_cmap profiles) cid : ℚ) *
          CLUSTER_VOTE_CAP) /
          cluster_votes sqrtFn profiles (agg_cmap profiles) cid) := by
    rw [hmapeq, List.sum_map_mul_right, hcaps]
    rfl
  obtain ⟨heq, hle⟩ := capped_sum_eq
    (cluster_votes sqrtFn profiles (agg_cmap profiles) cid)
    (cluster_counts profiles (agg_cmap profiles) cid) hT hn
  refine ⟨by rw [hsum, heq], by rw [hsum, heq]; exact hle, ?_⟩
  intro p _ hnone
  exact vote_unclustered sqrtFn profiles (agg_cmap profiles) p hnone

/-- Witness for C4 on the concrete run `psClusterW`, whose first two
wallets form one cluster with raw total 2 and member count 2. -/
theorem cluster_vote_cap_sound_witness :
    ((cluster_members psClusterW (agg_cmap psClusterW) 0).map
        (vote sqrtQ1 psClusterW (agg_cmap psClusterW))).sum =
      CLUSTER_VOTE_CAP * cluster_votes sqrtQ1 psClusterW (agg_cmap psClusterW) 0 /
        (cluster_counts psClusterW (agg_cmap psClusterW) 0 : ℚ) ∧
    ((cluster_members psClusterW (agg_cmap psClusterW) 0).map
        (vote sqrtQ1 psClusterW (agg_cmap psClusterW))).sum ≤
      cluster_votes sqrtQ1 psClusterW (agg_cmap psClusterW) 0 :=
  ⟨(cluster_vote_cap_sound sqrtQ1 psClusterW 0
      (by
        have hm : cluster_members psClusterW (agg_cmap psClusterW) 0 =
            [⟨"ca", "YES", 1, 1, 1, 1000, 500⟩, ⟨"cb", "YES", 1, 1, 1, 2000, 600⟩] := rfl
        rw [cluster_votes, hm]
        norm_num [vote_raw, sqrtQ1])
      (by decide)).1,
   (cluster_vote_cap_sound sqrtQ1 psClusterW 0
      (by
        have hm : cluster_members psClusterW (agg_cmap psClusterW) 0 =
            [⟨"ca", "YES", 1, 1, 1, 1000, 500⟩, ⟨"cb", "YES", 1, 1, 1, 2000, 600⟩] := rfl
        rw [cluster_votes, hm]
        norm_num [vote_raw, sqrtQ1])
      (by decide)).2.1⟩

/-- On at least 3 profiles, the whale-warning field of the aggregate is
the whale check applied to the profile list. -/
theorem aggregate_whale_eq (sqrtFn : ℚ → ℚ) (profiles : List Profile)
    (h : ¬ profiles.length < 3) :
    (aggregate_signal sqrtFn profiles).whale_warning = whaleWarningOf profiles := by
  unfold aggregate_signal
  dsimp only
  rw [if_neg h]

/-- C2 (amended): with at least 3 profiles, the whale-dominance warning
is set if and only if the second profile of the list as given (the
composite-sorted order, not the invested-value order) has positive
invested value and the first profile's invested value is at least 3
times it; with exactly 2 profiles the aggregator takes the no-signal
path and never sets the warning. -/
theorem whale_warning_positional (sqrtFn : ℚ → ℚ) (p0 p1 : Profile)
    (rest : List Profile) (hr : 1 ≤ rest.length) :
    ((aggregate_signal sqrtFn (p0 :: p1 :: rest)).whale_warning ≠ none ↔
      0 < p1.usdc_invested ∧ 3 * p1.usdc_invested ≤ p0.usdc_invested) ∧
    ∀ q0 q1 : Profile, (aggregate_signal sqrtFn [q0, q1]).whale_warning = none := by
  constructor
  · rw [aggregate_whale_eq sqrtFn (p0 :: p1 :: rest)
      (by simp only [List.length_cons]; omega)]
    show (if 0 < p1.usdc_invested ∧ 3 ≤ p0.usdc_invested / p1.usdc_invested
        then some "Single whale dominates (top over 3x the number-2 holder)"
        else none) ≠ none ↔ _
    split_ifs with hcond
    · constructor
      · intro _
        exact ⟨hcond.1, (le_div_iff₀ hcond.1).mp hcond.2⟩
      · intro _
        exact Option.some_ne_none _
    · constructor
      · intro hne
        exact absurd rfl hne
      · intro hrhs
        exact absurd ⟨hrhs.1, (le_div_iff₀ hrhs.1).mpr hrhs.2⟩ hcond
  · intro q0 q1
    unfold aggregate_signal
    dsimp only
    rw [if_pos (by simp)]
    rfl

/-- Witness for C2's amended statement: in `psWhaleW` the first two
profiles invest 9 and 3, so the warning fires; and a 2-profile run
yields no warning. -/
theorem whale_warning_positional_witness :
    (aggregate_signal sqrtQ1 psWhaleW).whale_warning ≠ none ∧
    (aggregate_signal sqrtQ1 psSameTs).whale_warning = none :=
  ⟨(whale_warning_positional sqrtQ1
      ⟨"x", "YES", 9/10, 1/2, 9, 1000, 0⟩
      ⟨"y", "NO", 8/10, 1/2, 3, 2000, 200000⟩
      [⟨"z", "YES", 7/10, 1/2, 1, 3000, 400000⟩]
      (by norm_num)).1.mpr
      ⟨by show (0:ℚ) < 3; norm_num, by show 3 * (3:ℚ) ≤ 9; norm_num⟩,
   (whale_warning_positional sqrtQ1
      ⟨"x", "YES", 9/10, 1/2, 9, 1000, 0⟩
      ⟨"y", "NO", 8/10, 1/2, 3, 2000, 200000⟩
      [⟨"z", "YES", 7/10, 1/2, 1, 3000, 400000⟩]
      (by norm_num)).2
      ⟨"w1", "YES", 1, 1, 1, 1000, 7777⟩ ⟨"w2", "NO", 1, 1, 1, 2000, 7777⟩⟩

/-- Counterexample to C2 as stated: in `psWhaleC` the largest invested
value among all profiles is 10 and the second-largest is 1 (so the
claim's trigger, largest ≥ 3× second-largest, holds), yet the whale
warning is not set — the source compares the first two entries of the
composite-sorted list, which both invested 1. -/
theorem whale_warning_spec_violation :
    spec_whale_condition psWhaleC ∧
    (aggregate_signal sqrtQ1 psWhaleC).whale_warning = none := by
  constructor
  · refine ⟨10, 1, [1], ?_, ?_, ?_, ?_⟩
    · show ([1, 1, 10] : List ℚ).Perm [10, 1, 1]
      decide
    · intro v hv
      rcases List.mem_cons.mp hv with h | h
      · rw [h]; norm_num
      · rw [List.mem_singleton.mp h]; norm_num
    · intro v hv
      rw [List.mem_singleton.mp hv]
    · norm_num
  · rw [aggregate_whale_eq sqrtQ1 psWhaleC (by norm_num [psWhaleC])]
    show (if (0:ℚ) < 1 ∧ 3 ≤ 1 / 1 then _ else none) = none
    rw [if_neg (by norm_num)]

/-- On at least 3 profiles, the yes-share field of the aggregate is 100
times the yes vote total divided by the `or 1` denominator. -/
theorem aggregate_yes_pct_eq (sqrtFn : ℚ → ℚ) (profiles : List Profile)
    (h : ¬ profiles.length < 3) :
    (aggregate_signal sqrtFn profiles).yes_pct =
      100 * (agg_yes_votes sqrtFn profiles / agg_total sqrtFn profiles) := by
  unfold aggregate_signal
  dsimp only
  rw [if_neg h]

/-- On at least 3 profiles, the no-share field of the aggregate is 100
times the no vote total divided by the `or 1` denominator. -/
theorem aggregate_no_pct_eq (sqrtFn : ℚ → ℚ) (profiles : List Profile)
    (h : ¬ profiles.length < 3) :
    (aggregate_signal sqrtFn profiles).no_pct =
      100 * (agg_no_votes sqrtFn profiles / agg_total sqrtFn profiles) := by
  unfold aggregate_signal
  dsimp only
  rw [if_neg h]

/-- C7 (amended): with at least 3 profiles each side's share is its
vote total divided by the grand total, where the denominator is the raw
grand total except that an exactly-zero total is replaced by 1 — the
denominator is never zero, but totals strictly between 0 and 1 are used
as they are (not floored up to 1). -/
theorem vote_share_denominator (sqrtFn : ℚ → ℚ) (profiles : List Profile)
    (h : 3 ≤ profiles.length) :
    (aggregate_signal sqrtFn profiles).yes_pct =
      100 * (agg_yes_votes sqrtFn profiles / agg_total sqrtFn profiles) ∧
    (aggregate_signal sqrtFn profiles).no_pct =
      100 * (agg_no_votes sqrtFn profiles / agg_total sqrtFn profiles) ∧
    agg_total sqrtFn profiles ≠ 0 := by
  have h3 : ¬ profiles.length < 3 := by omega
  refine ⟨aggregate_yes_pct_eq sqrtFn profiles h3,
    aggregate_no_pct_eq sqrtFn profiles h3, ?_⟩
  unfold agg_total
  split_ifs with h0
  · norm_num
  · exact h0

/-- Witness for C7's amended statement on the concrete run
`psSmallVotes`. -/
theorem vote_share_denominator_witness :
    (aggregate_signal sqrtQ1 psSmallVotes).yes_pct =
      100 * (agg_yes_votes sqrtQ1 psSmallVotes / agg_total sqrtQ1 psSmallVotes) ∧
    (aggregate_signal sqrtQ1 psSmallVotes).no_pct =
      100 * (agg_no_votes sqrtQ1 psSmallVotes / agg_total sqrtQ1 psSmallVotes) ∧
    agg_total sqrtQ1 psSmallVotes ≠ 0 :=
  vote_share_denominator sqrtQ1 psSmallVotes (by norm_num [psSmallVotes])

/-- Counterexample to C7 as stated: in `psSmallVotes` the grand vote
total is 3/20, strictly between 0 and 1; the computed yes share is
(1/10)/(3/20) = 2/3 of the raw total, whereas a denominator floored at
1 (`max total 1`) would have given 1/10 — the source does not floor the
total, it only substitutes 1 for an exactly-zero total. -/
theorem vote_share_not_floored :
    agg_yes_votes sqrtQ1 psSmallVotes = 1 / 10 ∧
    agg_no_votes sqrtQ1 psSmallVotes = 1 / 20 ∧
    (aggregate_signal sqrtQ1 psSmallVotes).yes_pct = 100 * (2 / 3 : ℚ) ∧
    (aggregate_signal sqrtQ1 psSmallVotes).yes_pct ≠
      100 * (agg_yes_votes sqrtQ1 psSmallVotes /
        max (agg_yes_votes sqrtQ1 psSmallVotes + agg_no_votes sqrtQ1 psSmallVotes) 1) := by
  have hyes : agg_yes_profiles psSmallVotes = [pY1, pY2] := rfl
  have hno : agg_no_profiles psSmallVotes = [pN1] := rfl
  have hv1 : vote sqrtQ1 psSmallVotes (agg_cmap psSmallVotes) pY1 = 1 / 20 := by
    rw [vote_unclustered sqrtQ1 psSmallVotes (agg_cmap psSmallVotes) pY1 rfl]
    norm_num [vote_raw, sqrtQ1, pY1]
  have hv2 : vote sqrtQ1 psSmallVotes (agg_cmap psSmallVotes) pY2 = 1 / 20 := by
    rw [vote_unclustered sqrtQ1 psSmallVotes (agg_cmap psSmallVotes) pY2 rfl]
    norm_num [vote_raw, sqrtQ1, pY2]
  have hv3 : vote sqrtQ1 psSmallVotes (agg_cmap psSmallVotes) pN1 = 1 / 20 := by
    rw [vote_unclustered sqrtQ1 psSmallVotes (agg_cmap psSmallVotes) pN1 rfl]
    norm_num [vote_raw, sqrtQ1, pN1]
  have hY : agg_yes_votes sqrtQ1 psSmallVotes = 1 / 10 := by
    rw [agg_yes_votes, hyes, List.map_cons, List.map_cons, List.map_nil,
      List.sum_cons, List.sum_cons, List.sum_nil, hv1, hv2]
    norm_num
  have hN : agg_no_votes sqrtQ1 psSmallVotes = 1 / 20 := by
    rw [agg_no_votes, hno, List.map_cons, List.map_nil,
      List.sum_cons, List.sum_nil, hv3]
    norm_num
  have hT : agg_total sqrtQ1 psSmallVotes = 3 / 20 := by
    unfold agg_total
    rw [hY, hN]
    norm_num
  have hmax : max (agg_yes_votes sqrtQ1 psSmallVotes +
      agg_no_votes sqrtQ1 psSmallVotes) 1 = 1 := by
    rw [hY, hN]
    rw [max_eq_right (by norm_num)]
  refine ⟨hY, hN, ?_, ?_⟩
  · rw [aggregate_yes_pct_eq sqrtQ1 psSmallVotes (by norm_num [psSmallVotes]),
      hY, hT]
    norm_num
  · rw [aggregate_yes_pct_eq sqrtQ1 psSmallVotes (by norm_num [psSmallVotes]),
      hmax, hY, hT]
    norm_num

/-- On at least 3 profiles, the consensus field of the aggregate is the
top-5 label of the profile list. -/
theorem aggregate_top5_eq (sqrtFn : ℚ → ℚ) (profiles : List Profile)
    (h : ¬ profiles.length < 3) :
    (aggregate_signal sqrtFn profiles).top5_consensus = top5_label profiles := by
  unfold aggregate_signal
  dsimp only
  rw [if_neg h]

/-- C8 (amended): the consensus label is computed from the per-side
counts of the first 5 profiles with the claimed thresholds (one side
with ≥4 gives Strong, else one side with ≥3 gives Lean, else Split);
Strong and Lean labels are reported as `label (count/5)`, but the Split
label is reported as `Split (yes_count/no_count)`, not over 5. -/
theorem top5_consensus_label (sqrtFn : ℚ → ℚ) (profiles : List Profile)
    (h : 3 ≤ profiles.length) :
    (aggregate_signal sqrtFn profiles).top5_consensus = top5_label profiles ∧
    (4 ≤ agg_top5_yes profiles →
      top5_label profiles = "Strong YES (" ++ toString (agg_top5_yes profiles) ++ "/5)") ∧
    (4 ≤ agg_top5_no profiles →
      top5_label profiles = "Strong NO (" ++ toString (agg_top5_no profiles) ++ "/5)") ∧
    (agg_top5_yes profiles < 4 → 3 ≤ agg_top5_yes profiles →
      top5_label profiles = "Lean YES (" ++ toString (agg_top5_yes profiles) ++ "/5)") ∧
    (agg_top5_yes profiles < 3 → agg_top5_no profiles < 4 → 3 ≤ agg_top5_no profiles →
      top5_label profiles = "Lean NO (" ++ toString (agg_top5_no profiles) ++ "/5)") ∧
    (agg_top5_yes profiles < 3 → agg_top5_no profiles < 3 →
      top5_label profiles = "Split (" ++ toString (agg_top5_yes profiles) ++ "/" ++
        toString (agg_top5_no profiles) ++ ")") := by
  have hlen5 : (profiles.take 5).length ≤ 5 := by
    simp [List.length_take]
  have hyle : agg_top5_yes profiles ≤ (profiles.take 5).length :=
    List.length_filter_le _ _
  have hno_eq : agg_top5_no profiles = (profiles.take 5).length - agg_top5_yes profiles :=
    rfl
  refine ⟨aggregate_top5_eq sqrtFn profiles (by omega), ?_, ?_, ?_, ?_, ?_⟩
  · intro h4
    unfold top5_label
    rw [if_pos h4]
    rfl
  · intro h4
    have hy : ¬ 4 ≤ agg_top5_yes profiles := by omega
    unfold top5_label
    rw [if_neg hy, if_pos h4]
    rfl
  · intro hlt h3y
    have hn : ¬ 4 ≤ agg_top5_no profiles := by omega
    unfold top5_label
    rw [if_neg (by omega : ¬ 4 ≤ agg_top5_yes profiles), if_neg hn, if_pos h3y]
    rfl
  · intro hy3 hn4 h3n
    unfold top5_label
    rw [if_neg (by omega : ¬ 4 ≤ agg_top5_yes profiles), if_neg (by omega),
      if_neg (by omega : ¬ 3 ≤ agg_top5_yes profiles), if_pos h3n]
    rfl
  · intro hy3 hn3
    unfold top5_label
    rw [if_neg (by omega : ¬ 4 ≤ agg_top5_yes profiles), if_neg (by omega),
      if_neg (by omega : ¬ 3 ≤ agg_top5_yes profiles), if_neg (by omega)]
    rfl

/-- Witness for C8's amended statement: `psSmallVotes` has top-5 counts
2 yes / 1 no, giving the Split label over the side counts. -/
theorem top5_consensus_label_witness :
    (aggregate_signal sqrtQ1 psSmallVotes).top5_consensus = top5_label psSmallVotes ∧
    top5_label psSmallVotes = "Split (" ++ toString (agg_top5_yes psSmallVotes) ++ "/" ++
      toString (agg_top5_no psSmallVotes) ++ ")" :=
  ⟨(top5_consensus_label sqrtQ1 psSmallVotes (by norm_num [psSmallVotes])).1,
   (top5_consensus_label sqrtQ1 psSmallVotes
      (by norm_num [psSmallVotes])).2.2.2.2.2 (by decide) (by decide)⟩

/-- Counterexample to C8 as stated: on the 3-profile run `psSmallVotes`
(2 yes, 1 no in the top 5) the label is `"Split (2/1)"`, which is not
of the form `label (count/5)` — its last three characters are not
`/5)`. -/
theorem top5_label_split_format :
    (aggregate_signal sqrtQ1 psSmallVotes).top5_consensus = "Split (2/1)" ∧
    "Split (2/1)".data.reverse.take 3 ≠ "/5)".data.reverse := by
  constructor
  · rw [aggregate_top5_eq sqrtQ1 psSmallVotes (by norm_num [psSmallVotes])]
    decide
  · decide
